import Mathlib

/-!
Verification of the Python resource-lifecycle analyzer
(`src/modules/helpers/resource_lifecycle_py.py`).

The analyzer walks a Python AST once, records resource acquisitions
(`open`, `socket.socket`, `subprocess.Popen`, `asyncio.create_task`,
`context.WithCancel`, ...), matches later release calls
(`.close()`, `.wait()`, `await t`, bare `cancel()`), exempts calls managed
by `with`/`async with`, and reports every record left unreleased.

The embedding below mirrors the source faithfully:
* AST nodes carry a numeric identity `nid` standing for CPython's `id()`
  (the analyzer keeps identity-based sets `safe_calls`/`assigned_calls`);
* Python dicts become association lists with last-writer-wins update and
  first-match lookup;
* the mutable `ResourceRecord` objects shared between `records` and the
  `by_name` index become an indexed list: `by_name` stores indices into
  `records`, so mutating a record through the index is visible in both;
* Python string truthiness (`if obj:` with `None`/`""` falsy) is `pyTruthy`;
* the one fallible spot, attribute access `call.func` inside
  `_call_signature` on a node that is not a `Call`, is an `Except` error
  (CPython raises `AttributeError` there, and `analyze` catches only
  `OSError` and `SyntaxError`).
-/

namespace RLC

/-- Python `AttributeError`: raised when `_call_signature` reads `.func`
of a node that is not a call expression. -/
inductive PyErr : Type where
  | attributeError : PyErr
deriving Repr, DecidableEq

/-- A canonical call signature: (origin module or `none`, symbol). -/
abbrev Sig := Option String × String

/-- Python truthiness of an optional string: `None` and `""` are falsy. -/
def pyTruthy : Option String → Bool
  | none => false
  | some s => s ≠ ""

/-- Python `a or b` for `a : Optional[str]`, `b : str`. -/
def pyOrStr (a : Option String) (b : String) : String :=
  match a with
  | some s => if s ≠ "" then s else b
  | none => b

/-- Python `a or b` for optional strings (used for `module = module or obj`). -/
def pyOr (a b : Option String) : Option String :=
  if pyTruthy a then a else b

/-- `TARGET_SIGS`: registered acquisition signatures and their kinds. -/
def TARGET_SIGS : List (Sig × String) :=
  [((none, "open"), "file_handle"),
   ((none, "connect"), "socket_handle"),
   ((none, "Popen"), "popen_handle"),
   ((none, "popen"), "popen_handle"),
   ((some "socket", "socket"), "socket_handle"),
   ((some "subprocess", "Popen"), "popen_handle"),
   ((some "asyncio", "create_task"), "asyncio_task"),
   ((some "context", "WithCancel"), "context_cancel"),
   ((some "context", "WithTimeout"), "context_cancel"),
   ((some "context", "WithDeadline"), "context_cancel")]

/-- `TARGET_SIGS.get(sig)` / `sig in TARGET_SIGS`. -/
def sigKind (sig : Sig) : Option String :=
  TARGET_SIGS.lookup sig

/-- `RELEASE_METHODS`: per kind, the method names counting as a release.
The list order is the Python dict's insertion order, which is the
iteration order of `_handle_release`. -/
def RELEASE_METHODS : List (String × List String) :=
  [("file_handle", ["close"]),
   ("socket_handle", ["close"]),
   ("popen_handle", ["wait", "communicate", "terminate", "kill"]),
   ("asyncio_task", ["cancel"])]

/-- The fixed bare-callable method names of `_call_signature`. -/
def BARE_CALLABLES : List String := ["open", "connect", "Popen", "popen"]

/-- Python AST expressions, restricted to the shapes the analyzer
distinguishes.  `nid` models CPython object identity `id(node)`; only
call nodes carry a source line because only call linenos are ever read. -/
inductive Expr : Type where
  | name (nid : Nat) (ident : String)
  | attributeE (nid : Nat) (value : Expr) (attr : String)
  | call (nid : Nat) (func : Expr) (args : List Expr) (keywords : List Expr) (lineno : Nat)
  | tupleE (nid : Nat) (elts : List Expr)
  | listE (nid : Nat) (elts : List Expr)
  | awaitE (nid : Nat) (value : Expr)
  | constE (nid : Nat)

/-- The identity of a node (`id(node)` in Python). -/
def Expr.nid : Expr → Nat
  | .name n _ => n
  | .attributeE n _ _ => n
  | .call n _ _ _ _ => n
  | .tupleE n _ => n
  | .listE n _ => n
  | .awaitE n _ => n
  | .constE n => n

/-- `.lineno` as read by the analyzer; it is only ever read on call nodes. -/
def Expr.line : Expr → Nat
  | .call _ _ _ _ ln => ln
  | _ => 0

/-- An `ast.alias` clause of an import statement. -/
structure ImportAlias where
  name : String
  asname : Option String

/-- An `ast.withitem`: managed expression plus optional `as` target. -/
structure WithItem where
  context_expr : Expr
  optional_vars : Option Expr

/-- Python AST statements, restricted to the shapes the analyzer reacts to
(plus `pass`, which has no handler and no children). -/
inductive Stmt : Type where
  | importS (names : List ImportAlias)
  | importFrom (module : Option String) (names : List ImportAlias)
  | assign (targets : List Expr) (value : Expr)
  | annAssign (target : Expr) (ann : Expr) (value : Option Expr)
  | withS (items : List WithItem) (body : List Stmt)
  | asyncWith (items : List WithItem) (body : List Stmt)
  | exprStmt (value : Expr)
  | passS

/-- One acquisition record (`ResourceRecord.__slots__`). -/
structure ResourceRecord where
  name : Option String
  kind : String
  lineno : Nat
  released : Bool
deriving Repr, DecidableEq

/-- The analyzer state.  `by_name` holds indices into `records`, modeling
the Python shared mutable record objects; `safe_calls` and
`assigned_calls` are the identity sets. -/
structure Analyzer where
  aliases : List (String × (Option String × Option String))
  records : List ResourceRecord
  by_name : List (String × List Nat)
  safe_calls : List Nat
  assigned_calls : List Nat
deriving Repr, DecidableEq

/-- `Analyzer.__init__`. -/
def initAnalyzer : Analyzer :=
  { aliases := [], records := [], by_name := [], safe_calls := [], assigned_calls := [] }

/-- Python dict assignment `d[k] = v`: overwrite in place, else append. -/
def dictSet {α : Type} (d : List (String × α)) (k : String) (v : α) :
    List (String × α) :=
  match d with
  | [] => [(k, v)]
  | (k1, v1) :: rest =>
      if k1 = k then (k1, v) :: rest else (k1, v1) :: dictSet rest k v

/-- Python `d.get(k, dflt)`. -/
def dictGet {α : Type} (d : List (String × α)) (k : String) (dflt : α) : α :=
  match d with
  | [] => dflt
  | (k1, v1) :: rest => if k1 = k then v1 else dictGet rest k dflt

/-- `self.by_name.setdefault(name, []).append(rec)` where `rec` is the
record at index `i` of `records`. -/
def byNameAppend (d : List (String × List Nat)) (k : String) (i : Nat) :
    List (String × List Nat) :=
  match d with
  | [] => [(k, [i])]
  | (k1, v1) :: rest =>
      if k1 = k then (k1, v1 ++ [i]) :: rest else (k1, v1) :: byNameAppend rest k i

/-- Python `set.add`. -/
def setAdd (s : List Nat) (x : Nat) : List Nat :=
  if x ∈ s then s else s ++ [x]

/-- `_add_record`: append a fresh unreleased record; index it under its
owner name only when the name is truthy. -/
def add_record (st : Analyzer) (name : Option String) (kind : String)
    (lineno : Nat) : Analyzer :=
  let idx := st.records.length
  let recs := st.records ++ [⟨name, kind, lineno, false⟩]
  if pyTruthy name then
    { st with records := recs, by_name := byNameAppend st.by_name (name.getD "") idx }
  else
    { st with records := recs }

/-- The scan loop of `_mark_released`: first index in `entries` whose
record is unreleased and of the requested kind. -/
def findRelease (records : List ResourceRecord) (entries : List Nat)
    (kind : String) : Option Nat :=
  match entries with
  | [] => none
  | i :: rest =>
      match records.get? i with
      | some r => if ¬ r.released ∧ r.kind = kind then some i
                  else findRelease records rest kind
      | none => findRelease records rest kind

/-- Set the released flag of the record at index `i` (the Python code
mutates the shared record object). -/
def releaseAt : List ResourceRecord → Nat → List ResourceRecord
  | [], _ => []
  | r :: rest, 0 => { r with released := true } :: rest
  | r :: rest, Nat.succ i => r :: releaseAt rest i

/-- `_mark_released`: no-op when the name has no (or no matching
unreleased) record; otherwise flip exactly the first match. -/
def mark_released (st : Analyzer) (name : String) (kind : String) : Analyzer :=
  match st.by_name.lookup name with
  | none => st
  | some entries =>
      if entries = [] then st
      else
        match findRelease st.records entries kind with
        | none => st
        | some i => { st with records := releaseAt st.records i }

/-- The body of `_call_signature` after `func = call.func` (total: it only
inspects the callee shape). -/
def call_signature_func (aliases : List (String × (Option String × Option String)))
    (func : Expr) : Option Sig :=
  match func with
  | .name _ ident =>
      let p := dictGet aliases ident (none, none)
      match p.2 with
      | some obj => if obj ≠ "" then some (p.1, obj) else some (p.1, ident)
      | none => some (p.1, ident)
  | .attributeE _ base attr =>
      match base with
      | .name _ bid =>
          let p := dictGet aliases bid (some bid, none)
          if attr ∈ BARE_CALLABLES then some (none, attr)
          else if pyTruthy p.2 then some (pyOr p.1 p.2, attr)
          else some (p.1, attr)
      | _ => if attr ∈ BARE_CALLABLES then some (none, attr) else none
  | _ => none

/-- `_call_signature`: reads `call.func`, an `AttributeError` when the
argument is not a call node (reachable from `_handle_assignment`, which
passes an arbitrary assignment right-hand side). -/
def call_signature (aliases : List (String × (Option String × Option String)))
    (call : Expr) : Except PyErr (Option Sig) :=
  match call with
  | .call _ func _ _ _ => .ok (call_signature_func aliases func)
  | _ => .error .attributeError

/-- `_call_signature_from_expr`: guarded by an isinstance check, total. -/
def call_signature_from_expr
    (aliases : List (String × (Option String × Option String)))
    (expr : Expr) : Option Sig :=
  match expr with
  | .call _ func _ _ _ => call_signature_func aliases func
  | _ => none

/- `_collect_names`: flatten name / tuple / list targets; anything else
contributes no names. -/
mutual
def collect_names : Expr → List String
  | .name _ ident => [ident]
  | .tupleE _ elts => collect_names_list elts
  | .listE _ elts => collect_names_list elts
  | .attributeE _ _ _ => []
  | .call _ _ _ _ _ => []
  | .awaitE _ _ => []
  | .constE _ => []

def collect_names_list : List Expr → List String
  | [] => []
  | e :: rest => collect_names e ++ collect_names_list rest
end

/-- The `for kind, methods in RELEASE_METHODS.items(): if method in methods`
loop: the first kind whose release-method set contains `method`. -/
def releaseKind (method : String) : Option String :=
  (RELEASE_METHODS.find? (fun p => method ∈ p.2)).map (fun p => p.1)

/-- `_handle_release`: attribute call on a simple name releases by the
first matching kind; a bare-name call releases a cancellable context;
anything else has no effect. -/
def handle_release (st : Analyzer) (func : Expr) : Analyzer :=
  match func with
  | .attributeE _ (.name _ bid) attr =>
      match releaseKind attr with
      | some kind => mark_released st bid kind
      | none => st
  | .attributeE _ _ _ => st
  | .name _ ident => mark_released st ident "context_cancel"
  | _ => st

/-- `_handle_assignment`: resolve the value's signature (may raise), stop
on unregistered signatures, otherwise mark the node assigned and create
records per the kind's convention. -/
def handle_assignment (st : Analyzer) (targets : List Expr) (value : Expr) :
    Except PyErr Analyzer :=
  match call_signature st.aliases value with
  | .error e => .error e
  | .ok none => .ok st
  | .ok (some sig) =>
      match sigKind sig with
      | none => .ok st
      | some kind =>
          let st1 := { st with assigned_calls := setAdd st.assigned_calls value.nid }
          let names := collect_names_list targets
          if kind = "context_cancel" then
            match names with
            | [] => .ok (add_record st1 none kind value.line)
            | [n1] => .ok (add_record st1 (some n1) kind value.line)
            | _ :: n2 :: _ => .ok (add_record st1 (some n2) kind value.line)
          else
            match names with
            | [] => .ok (add_record st1 none kind value.line)
            | _ :: _ =>
                .ok (names.foldl (fun acc n => add_record acc (some n) kind value.line) st1)

/-- The loop body of `_mark_safe`: exempt (by identity) a managed
expression that is a call with a registered signature. -/
def mark_safe_step (acc : Analyzer) (item : WithItem) : Analyzer :=
  match call_signature_from_expr acc.aliases item.context_expr with
  | none => acc
  | some sig =>
      if (sigKind sig).isSome
      then { acc with safe_calls := setAdd acc.safe_calls item.context_expr.nid }
      else acc

/-- `_mark_safe`. -/
def mark_safe (st : Analyzer) (items : List WithItem) : Analyzer :=
  items.foldl mark_safe_step st

/-- `visit_Import`. -/
def visit_import (st : Analyzer) (names : List ImportAlias) : Analyzer :=
  names.foldl (fun acc a =>
    { acc with aliases := dictSet acc.aliases (pyOrStr a.asname a.name) (some a.name, none) }) st

/-- `visit_ImportFrom` (star imports skipped). -/
def visit_import_from (st : Analyzer) (module : Option String)
    (names : List ImportAlias) : Analyzer :=
  let m := pyOrStr module ""
  names.foldl (fun acc a =>
    if a.name = "*" then acc
    else { acc with aliases := dictSet acc.aliases (pyOrStr a.asname a.name) (some m, some a.name) }) st

/- The expression side of the traversal.  `visitExpr` is
`NodeVisitor.visit` restricted to expressions: `visit_Call` and
`visit_Await` are the registered handlers, everything else is
`generic_visit` (descend in field order). -/
mutual
def visitExpr (st : Analyzer) : Expr → Analyzer
  | .call nid func args kws ln =>
      let st1 :=
        if nid ∈ st.assigned_calls then st
        else
          match call_signature_func st.aliases func with
          | none => st
          | some sig =>
              match sigKind sig with
              | none => st
              | some kind =>
                  if nid ∈ st.safe_calls then st else add_record st none kind ln
      let st2 := handle_release st1 func
      visitExprList (visitExprList (visitExpr st2 func) args) kws
  | .attributeE _ value _ => visitExpr st value
  | .name _ _ => st
  | .tupleE _ elts => visitExprList st elts
  | .listE _ elts => visitExprList st elts
  | .awaitE _ value =>
      let st1 :=
        match value with
        | .name _ ident => mark_released st ident "asyncio_task"
        | _ => st
      visitExpr st1 value
  | .constE _ => st

def visitExprList (st : Analyzer) : List Expr → Analyzer
  | [] => st
  | e :: rest => visitExprList (visitExpr st e) rest
end

/-- `generic_visit` of one `ast.withitem`: context expression, then the
optional `as` target. -/
def visitWithItem (st : Analyzer) (item : WithItem) : Analyzer :=
  let st1 := visitExpr st item.context_expr
  match item.optional_vars with
  | some v => visitExpr st1 v
  | none => st1

/-- `generic_visit` over a `With` statement's item list. -/
def visitWithItems (st : Analyzer) (items : List WithItem) : Analyzer :=
  items.foldl visitWithItem st

/- The statement side of the traversal: `visit_Import`,
`visit_ImportFrom`, `visit_Assign`, `visit_AnnAssign`, `visit_With`,
`visit_AsyncWith` are handlers; expression statements and `pass` go
through `generic_visit`. -/
mutual
def visitStmt (st : Analyzer) : Stmt → Except PyErr Analyzer
  | .importS names => .ok (visit_import st names)
  | .importFrom module names => .ok (visit_import_from st module names)
  | .assign targets value =>
      match handle_assignment st targets value with
      | .error e => .error e
      | .ok st1 => .ok (visitExpr (visitExprList st1 targets) value)
  | .annAssign target ann value =>
      match value with
      | some v =>
          match handle_assignment st [target] v with
          | .error e => .error e
          | .ok st1 => .ok (visitExpr (visitExpr (visitExpr st1 target) ann) v)
      | none => .ok (visitExpr (visitExpr st target) ann)
  | .withS items body =>
      visitStmtList (visitWithItems (mark_safe st items) items) body
  | .asyncWith items body =>
      visitStmtList (visitWithItems (mark_safe st items) items) body
  | .exprStmt value => .ok (visitExpr st value)
  | .passS => .ok st

def visitStmtList (st : Analyzer) : List Stmt → Except PyErr Analyzer
  | [] => .ok st
  | s :: rest =>
      match visitStmt st s with
      | .error e => .error e
      | .ok st1 => visitStmtList st1 rest
end

/-- `Analyzer(tree); analyzer.visit(tree)` on a module body. -/
def runAnalyzer (body : List Stmt) : Except PyErr Analyzer :=
  visitStmtList initAnalyzer body

/-- `Analyzer.report`: one line per unreleased record, in creation order. -/
def report (st : Analyzer) (path : String) : List String :=
  st.records.filterMap (fun r =>
    if r.released then none
    else some (path ++ ":" ++ toString r.lineno ++ "\t" ++ r.kind ++ "\t"))

/-- What `analyze` receives for one file: an unreadable file (`OSError`),
a file that fails to parse (`SyntaxError`), or a parsed module body. -/
inductive FileInput : Type where
  | unreadable : FileInput
  | parseFailure : FileInput
  | parsed (body : List Stmt) : FileInput

/-- `analyze`: read and parse failures yield zero diagnostics; any other
exception (notably `AttributeError` from `_call_signature`) escapes. -/
def analyze (path : String) (input : FileInput) : Except PyErr (List String) :=
  match input with
  | .unreadable => .ok []
  | .parseFailure => .ok []
  | .parsed body =>
      match runAnalyzer body with
      | .error e => .error e
      | .ok st => .ok (report st path)

/-!
### Specification-side definitions

Predicates used to state properties of the release matcher, plus the
concrete syntax trees and analyzer states the claims are tested on.
-/

/-- `true` when index `i` does NOT match a release of kind `k`: the
record is already released or has a different kind (an out-of-range
index, impossible in reachable states, trivially fails to match). -/
def recNoMatch (records : List ResourceRecord) (k : String) (i : Nat) : Bool :=
  match records.get? i with
  | some r => r.released || r.kind ≠ k
  | none => true

/-- Index `i` is the earliest entry of the name-indexed list `entries`
(which is in creation order) holding an unreleased record of kind `k`:
`i` occurs in `entries`, matches, and every entry before it fails to. -/
def matchedEarliest (records : List ResourceRecord) (entries : List Nat)
    (k : String) (i : Nat) : Prop :=
  ∃ pre post, entries = pre ++ i :: post
    ∧ (∃ r, records.get? i = some r ∧ r.released = false ∧ r.kind = k)
    ∧ ∀ j ∈ pre, recNoMatch records k j = true

/-- `new` is `old` with exactly the record at index `i` marked released
and every other position untouched. -/
def releasedExactlyAt (old new : List ResourceRecord) (i : Nat) : Prop :=
  new.get? i = (old.get? i).map (fun r => { r with released := true })
  ∧ ∀ j, j ≠ i → new.get? j = old.get? j

/-- `x, y = open("p")` on line 1: one acquisition call node (nid 3)
whose result is bound to two names. -/
def fanoutTree : List Stmt :=
  [.assign [.tupleE 0 [.name 1 "x", .name 2 "y"]]
    (.call 3 (.name 4 "open") [.constE 5] [] 1)]

/-- `a = open("p"); a = open("q"); a.close()` on lines 1-3. -/
def reopenTree : List Stmt :=
  [.assign [.name 0 "a"] (.call 1 (.name 2 "open") [.constE 3] [] 1),
   .assign [.name 4 "a"] (.call 5 (.name 6 "open") [.constE 7] [] 2),
   .exprStmt (.call 8 (.attributeE 9 (.name 10 "a") "close") [] [] 3)]

/-- The analyzer state reached by `reopenTree` just before the `.close()`
call: two unreleased file-handle records owned by `a`, creation order. -/
def reopenStore : Analyzer :=
  { aliases := [],
    records := [⟨some "a", "file_handle", 1, false⟩,
                ⟨some "a", "file_handle", 2, false⟩],
    by_name := [("a", [0, 1])],
    safe_calls := [],
    assigned_calls := [1, 5] }

/-- `with open("x") as f: pass` on line 1. -/
def withAsTree : List Stmt :=
  [.withS [⟨.call 0 (.name 1 "open") [.constE 2] [] 1, some (.name 3 "f")⟩] [.passS]]

/-- `with open("x"): pass` on line 1 (no `as` binding). -/
def withNoAsTree : List Stmt :=
  [.withS [⟨.call 0 (.name 1 "open") [.constE 2] [] 1, none⟩] [.passS]]

/-- `async with open("x") as f: pass` on line 1. -/
def asyncWithTree : List Stmt :=
  [.asyncWith [⟨.call 0 (.name 1 "open") [.constE 2] [] 1, some (.name 3 "f")⟩] [.passS]]

/-- `from context import WithCancel` then `ctx, cancel = WithCancel()`
(line 2), then `cancel()` (line 3). -/
def cancelReleasedTree : List Stmt :=
  [.importFrom (some "context") [⟨"WithCancel", none⟩],
   .assign [.tupleE 0 [.name 1 "ctx", .name 2 "cancel"]]
     (.call 3 (.name 4 "WithCancel") [] [] 2),
   .exprStmt (.call 5 (.name 6 "cancel") [] [] 3)]

/-- Same acquisition but `cancel` is never called. -/
def cancelLeakedTree : List Stmt :=
  [.importFrom (some "context") [⟨"WithCancel", none⟩],
   .assign [.tupleE 0 [.name 1 "ctx", .name 2 "cancel"]]
     (.call 3 (.name 4 "WithCancel") [] [] 2)]

/-- `from context import WithCancel` then `a, cancel, b = WithCancel()`
(line 2): three bound names, the record must go to the second. -/
def cancelThreeTree : List Stmt :=
  [.importFrom (some "context") [⟨"WithCancel", none⟩],
   .assign [.tupleE 0 [.name 1 "a", .name 2 "cancel", .name 7 "b"]]
     (.call 3 (.name 4 "WithCancel") [] [] 2)]

/-- `import socket; s = socket.socket(); s.close()` on lines 1-3. -/
def socketCloseTree : List Stmt :=
  [.importS [⟨"socket", none⟩],
   .assign [.name 0 "s"] (.call 1 (.attributeE 2 (.name 3 "socket") "socket") [] [] 2),
   .exprStmt (.call 4 (.attributeE 5 (.name 6 "s") "close") [] [] 3)]

/-- A state holding one unreleased file-handle record owned by `f`. -/
def fileStore : Analyzer :=
  { aliases := [],
    records := [⟨some "f", "file_handle", 1, false⟩],
    by_name := [("f", [0])],
    safe_calls := [],
    assigned_calls := [] }

/-- A state holding one unreleased socket-handle record owned by `s`. -/
def socketStore : Analyzer :=
  { aliases := [("socket", (some "socket", none))],
    records := [⟨some "s", "socket_handle", 2, false⟩],
    by_name := [("s", [0])],
    safe_calls := [],
    assigned_calls := [1] }

/-!
### Helper lemmas
-/

theorem mem_setAdd_self (s : List Nat) (x : Nat) : x ∈ setAdd s x := by
  unfold setAdd
  by_cases h : x ∈ s <;> simp [h]

theorem mem_setAdd_of_mem (s : List Nat) (x y : Nat) (h : x ∈ s) :
    x ∈ setAdd s y := by
  unfold setAdd
  by_cases hy : y ∈ s <;> simp [hy, h]

theorem recNoMatch_some (records : List ResourceRecord) (k : String) (i : Nat)
    (r : ResourceRecord) (hg : records.get? i = some r) :
    recNoMatch records k i = (r.released || decide (r.kind ≠ k)) := by
  unfold recNoMatch
  rw [hg]

theorem recNoMatch_none (records : List ResourceRecord) (k : String) (i : Nat)
    (hg : records.get? i = none) : recNoMatch records k i = true := by
  unfold recNoMatch
  rw [hg]

theorem findRelease_cons_some (records : List ResourceRecord) (i : Nat)
    (rest : List Nat) (k : String) (r : ResourceRecord)
    (hg : records.get? i = some r) :
    findRelease records (i :: rest) k
      = if ¬r.released = true ∧ r.kind = k then some i
        else findRelease records rest k := by
  simp only [findRelease, hg]

theorem findRelease_cons_none (records : List ResourceRecord) (i : Nat)
    (rest : List Nat) (k : String) (hg : records.get? i = none) :
    findRelease records (i :: rest) k = findRelease records rest k := by
  simp only [findRelease, hg]

theorem findRelease_none (records : List ResourceRecord) (entries : List Nat)
    (k : String) (h : ∀ i ∈ entries, recNoMatch records k i = true) :
    findRelease records entries k = none := by
  induction entries with
  | nil => rfl
  | cons i rest ih =>
      have hi := h i (List.mem_cons_self i rest)
      have hrest : ∀ j ∈ rest, recNoMatch records k j = true :=
        fun j hj => h j (List.mem_cons_of_mem _ hj)
      cases hg : records.get? i with
      | none => rw [findRelease_cons_none records i rest k hg]; exact ih hrest
      | some r =>
          rw [recNoMatch_some records k i r hg] at hi
          have hc : ¬(¬r.released = true ∧ r.kind = k) := by
            rintro ⟨h1, h2⟩
            rw [h2] at hi
            simp at hi
            exact h1 hi
          rw [findRelease_cons_some records i rest k r hg, if_neg hc]
          exact ih hrest

theorem findRelease_spec (records : List ResourceRecord) (entries : List Nat)
    (k : String) (i : Nat) (h : findRelease records entries k = some i) :
    matchedEarliest records entries k i := by
  induction entries with
  | nil => simp [findRelease] at h
  | cons j rest ih =>
      cases hg : records.get? j with
      | none =>
          rw [findRelease_cons_none records j rest k hg] at h
          obtain ⟨pre, post, h1, h2, h3⟩ := ih h
          refine ⟨j :: pre, post, by simp [h1], h2, ?_⟩
          intro x hx
          rcases List.mem_cons.mp hx with rfl | hx
          · exact recNoMatch_none records k x hg
          · exact h3 x hx
      | some r =>
          rw [findRelease_cons_some records j rest k r hg] at h
          by_cases hc : ¬r.released = true ∧ r.kind = k
          · rw [if_pos hc] at h
            have hji : j = i := Option.some.inj h
            subst hji
            exact ⟨[], rest, rfl,
              ⟨r, hg, by simpa using hc.1, hc.2⟩, by simp⟩
          · rw [if_neg hc] at h
            obtain ⟨pre, post, h1, h2, h3⟩ := ih h
            refine ⟨j :: pre, post, by simp [h1], h2, ?_⟩
            intro x hx
            rcases List.mem_cons.mp hx with rfl | hx
            · rw [recNoMatch_some records k x r hg]
              by_cases hr : r.released = true
              · simp [hr]
              · simp only [hr, Bool.false_or, decide_eq_true_eq]
                intro hk
                exact hc ⟨by simpa using hr, hk⟩
            · exact h3 x hx

theorem releaseAt_get_self (rs : List ResourceRecord) (i : Nat) :
    (releaseAt rs i).get? i = (rs.get? i).map (fun r => { r with released := true }) := by
  induction rs generalizing i with
  | nil => simp [releaseAt]
  | cons r rest ih =>
      cases i with
      | zero => rfl
      | succ n => simpa [releaseAt] using ih n

theorem releaseAt_get_ne (rs : List ResourceRecord) (i j : Nat) (h : j ≠ i) :
    (releaseAt rs i).get? j = rs.get? j := by
  induction rs generalizing i j with
  | nil => simp [releaseAt]
  | cons r rest ih =>
      cases i with
      | zero =>
          cases j with
          | zero => exact absurd rfl h
          | succ m => rfl
      | succ n =>
          cases j with
          | zero => rfl
          | succ m => simpa [releaseAt] using ih n m (by omega)

theorem mark_released_lookup_none (st : Analyzer) (n k : String)
    (he : st.by_name.lookup n = none) : mark_released st n k = st := by
  unfold mark_released
  rw [he]

theorem mark_released_lookup_some (st : Analyzer) (n k : String)
    (entries : List Nat) (he : st.by_name.lookup n = some entries) :
    mark_released st n k
      = if entries = [] then st
        else
          match findRelease st.records entries k with
          | none => st
          | some i => { st with records := releaseAt st.records i } := by
  unfold mark_released
  rw [he]

theorem mark_released_eq (st : Analyzer) (n k : String) (entries : List Nat)
    (i : Nat) (he : st.by_name.lookup n = some entries)
    (hf : findRelease st.records entries k = some i) :
    mark_released st n k = { st with records := releaseAt st.records i } := by
  have hne : entries ≠ [] := by
    intro hnil
    subst hnil
    simp [findRelease] at hf
  rw [mark_released_lookup_some st n k entries he, if_neg hne, hf]

theorem mark_released_noop (st : Analyzer) (n k : String)
    (h : ∀ i ∈ (st.by_name.lookup n).getD [], recNoMatch st.records k i = true) :
    mark_released st n k = st := by
  cases he : st.by_name.lookup n with
  | none => exact mark_released_lookup_none st n k he
  | some entries =>
      rw [mark_released_lookup_some st n k entries he]
      rw [he] at h
      by_cases hne : entries = []
      · rw [if_pos hne]
      · rw [if_neg hne, findRelease_none st.records entries k (by simpa using h)]

theorem mark_released_get_of_kind_ne (st : Analyzer) (n k : String) (i : Nat)
    (r : ResourceRecord) (hg : st.records.get? i = some r) (hk : r.kind ≠ k) :
    (mark_released st n k).records.get? i = some r := by
  cases he : st.by_name.lookup n with
  | none => rw [mark_released_lookup_none st n k he]; exact hg
  | some entries =>
      rw [mark_released_lookup_some st n k entries he]
      by_cases hne : entries = []
      · rw [if_pos hne]
        exact hg
      · rw [if_neg hne]
        cases hf : findRelease st.records entries k with
        | none => exact hg
        | some j =>
            obtain ⟨pre, post, h1, ⟨r2, hg2, hrel2, hk2⟩, h3⟩ :=
              findRelease_spec st.records entries k j hf
            have hij : i ≠ j := by
              intro hji
              subst hji
              rw [hg] at hg2
              exact hk (by rw [Option.some.inj hg2]; exact hk2)
            rw [releaseAt_get_ne st.records j i hij]
            exact hg

theorem find_first {α : Type} (p : α → Bool) (l : List α) (x : α)
    (h : l.find? p = some x) :
    ∃ pre post, l = pre ++ x :: post ∧ p x = true ∧ ∀ y ∈ pre, p y = false := by
  induction l with
  | nil => simp at h
  | cons a rest ih =>
      by_cases ha : p a
      · rw [List.find?_cons_of_pos rest ha] at h
        have hax : a = x := Option.some.inj h
        subst hax
        exact ⟨[], rest, rfl, ha, by simp⟩
      · rw [List.find?_cons_of_neg rest ha] at h
        obtain ⟨pre, post, h1, h2, h3⟩ := ih h
        refine ⟨a :: pre, post, by simp [h1], h2, ?_⟩
        intro y hy
        rcases List.mem_cons.mp hy with rfl | hy
        · exact Bool.eq_false_iff.mpr ha
        · exact h3 y hy

theorem add_record_records (st : Analyzer) (nm : Option String) (kind : String)
    (ln : Nat) :
    (add_record st nm kind ln).records = st.records ++ [⟨nm, kind, ln, false⟩] := by
  unfold add_record
  by_cases h : pyTruthy nm <;> simp [h]

theorem add_record_assigned (st : Analyzer) (nm : Option String) (kind : String)
    (ln : Nat) :
    (add_record st nm kind ln).assigned_calls = st.assigned_calls := by
  unfold add_record
  by_cases h : pyTruthy nm <;> simp [h]

theorem foldl_add_record_records (names : List String) :
    ∀ (st : Analyzer) (kind : String) (ln : Nat),
      (names.foldl (fun acc nm => add_record acc (some nm) kind ln) st).records
        = st.records ++ names.map (fun nm => (⟨some nm, kind, ln, false⟩ : ResourceRecord)) := by
  induction names with
  | nil => intro st kind ln; simp
  | cons n rest ih =>
      intro st kind ln
      simp only [List.foldl_cons, List.map_cons]
      rw [ih, add_record_records]
      simp

theorem foldl_add_record_assigned (names : List String) :
    ∀ (st : Analyzer) (kind : String) (ln : Nat),
      (names.foldl (fun acc nm => add_record acc (some nm) kind ln) st).assigned_calls
        = st.assigned_calls := by
  induction names with
  | nil => intro st kind ln; rfl
  | cons n rest ih =>
      intro st kind ln
      simp only [List.foldl_cons]
      rw [ih, add_record_assigned]

theorem mark_safe_step_aliases (acc : Analyzer) (item : WithItem) :
    (mark_safe_step acc item).aliases = acc.aliases := by
  unfold mark_safe_step
  cases h1 : call_signature_from_expr acc.aliases item.context_expr with
  | none => rfl
  | some sig => by_cases h2 : (sigKind sig).isSome <;> simp [h2]

theorem mark_safe_step_safe_mono (acc : Analyzer) (item : WithItem) (x : Nat)
    (h : x ∈ acc.safe_calls) : x ∈ (mark_safe_step acc item).safe_calls := by
  unfold mark_safe_step
  cases h1 : call_signature_from_expr acc.aliases item.context_expr with
  | none => exact h
  | some sig =>
      by_cases h2 : (sigKind sig).isSome
      · simp only [h2, if_true]
        exact mem_setAdd_of_mem _ _ _ h
      · simp only [h2, if_false]
        exact h

theorem mark_safe_cons (st : Analyzer) (a : WithItem) (rest : List WithItem) :
    mark_safe st (a :: rest) = mark_safe (mark_safe_step st a) rest := by
  simp [mark_safe, List.foldl]

theorem mark_safe_mono (items : List WithItem) :
    ∀ (st : Analyzer) (x : Nat), x ∈ st.safe_calls →
      x ∈ (mark_safe st items).safe_calls := by
  induction items with
  | nil => intro st x h; simpa [mark_safe] using h
  | cons a rest ih =>
      intro st x h
      rw [mark_safe_cons]
      exact ih _ x (mark_safe_step_safe_mono st a x h)

theorem mark_safe_marks (items : List WithItem) :
    ∀ (st : Analyzer) (item : WithItem) (sig : Sig), item ∈ items →
      call_signature_from_expr st.aliases item.context_expr = some sig →
      (sigKind sig).isSome = true →
      item.context_expr.nid ∈ (mark_safe st items).safe_calls := by
  induction items with
  | nil => intro st item sig hmem; cases hmem
  | cons a rest ih =>
      intro st item sig hmem hsig hreg
      rw [mark_safe_cons]
      rcases List.mem_cons.mp hmem with rfl | hmem2
      · apply mark_safe_mono
        unfold mark_safe_step
        simp only [hsig, hreg, if_true]
        exact mem_setAdd_self _ _
      · exact ih (mark_safe_step st a) item sig hmem2
          (by rw [mark_safe_step_aliases]; exact hsig) hreg

theorem sigKind_close (m : Option String) : sigKind (m, "close") = none := by
  cases m with
  | none => rfl
  | some s => simp [sigKind, TARGET_SIGS, List.lookup, beq_eq_decide]

theorem call_signature_close
    (al : List (String × (Option String × Option String)))
    (anid bnid : Nat) (f : String) :
    ∃ M, call_signature_func al (.attributeE anid (.name bnid f) "close")
      = some (M, "close") := by
  unfold call_signature_func
  have hb : ¬("close" ∈ BARE_CALLABLES) := by simp [BARE_CALLABLES]
  by_cases h : pyTruthy (dictGet al f (some f, none)).2 = true
  · exact ⟨pyOr (dictGet al f (some f, none)).1 (dictGet al f (some f, none)).2,
      by simp [hb, h]⟩
  · exact ⟨(dictGet al f (some f, none)).1, by simp [hb, h]⟩

/-!
### Claim theorems
-/

/-- Claim C1.  The claim states that an assignment whose right-hand
expression is not a call yields no signature, no record, no mutation,
and no error, and that classification never faults.  The code instead
faults: `_handle_assignment` passes the raw right-hand side to
`_call_signature`, which reads `.func` and raises `AttributeError` on
any non-call value.  `analyze` catches only `OSError` and `SyntaxError`,
so the error escapes.  Both `x = 5` and the repository's own test-suite
line `resp = await asyncio.sleep(0.1)` (src/test-suite/python/buggy/
async_errors.py, line 4) abort the analysis. -/
theorem classification_faults_on_noncall_assignment :
    analyze "t.py" (.parsed [.assign [.name 0 "x"] (.constE 1)])
      = .error .attributeError
    ∧ analyze "t.py" (.parsed
        [.importS [⟨"asyncio", none⟩],
         .assign [.name 0 "resp"]
           (.awaitE 1 (.call 2 (.attributeE 3 (.name 4 "asyncio") "sleep")
             [.constE 5] [] 4))])
      = .error .attributeError
    ∧ analyze "t.py" (.parsed [.annAssign (.name 0 "x") (.name 1 "int") (some (.constE 2))])
      = .error .attributeError := by
  exact ⟨rfl, rfl, rfl⟩

/-- Claim C7: a file that cannot be read (`OSError`) or fails to parse
(`SyntaxError`) produces zero diagnostics and the failure never raises
out of `analyze`, so one such bad file never aborts the overall scan. -/
theorem analyze_skips_bad_files (path : String) :
    analyze path .unreadable = .ok [] ∧ analyze path .parseFailure = .ok [] :=
  ⟨rfl, rfl⟩

/-- Claim C9: after `from socket import socket as sk` and `import socket`
are recorded, the bare-name call `sk(...)` and the attribute call
`socket.socket(...)` resolve to the identical canonical signature
`(socket, socket)`, which classifies as a socket handle. -/
theorem alias_resolution_agrees :
    (runAnalyzer [.importFrom (some "socket") [⟨"socket", some "sk"⟩],
                  .importS [⟨"socket", none⟩]]).map
      (fun st => (call_signature_func st.aliases (.name 1 "sk"),
                  call_signature_func st.aliases
                    (.attributeE 2 (.name 3 "socket") "socket")))
      = .ok (some (some "socket", "socket"), some (some "socket", "socket"))
    ∧ sigKind (some "socket", "socket") = some "socket_handle" :=
  ⟨rfl, rfl⟩

/-- Claim C3: a release event on name `n` against kind `k` marks released
exactly the earliest entry of `n`'s creation-ordered record list that is
unreleased and of kind `k`, leaving every other record unchanged; and in
`a = open("p"); a = open("q"); a.close()` exactly one file-handle record
stays unreleased, namely the second acquisition (line 2). -/
theorem release_marks_earliest (st : Analyzer) (n k : String)
    (entries : List Nat) (i : Nat)
    (he : st.by_name.lookup n = some entries)
    (hf : findRelease st.records entries k = some i) :
    mark_released st n k = { st with records := releaseAt st.records i }
    ∧ matchedEarliest st.records entries k i
    ∧ releasedExactlyAt st.records (releaseAt st.records i) i
    ∧ runAnalyzer reopenTree
        = .ok { reopenStore with
                  records := [⟨some "a", "file_handle", 1, true⟩,
                              ⟨some "a", "file_handle", 2, false⟩] }
    ∧ analyze "t.py" (.parsed reopenTree) = .ok ["t.py:2\tfile_handle\t"] :=
  ⟨mark_released_eq st n k entries i he hf,
   findRelease_spec st.records entries k i hf,
   ⟨releaseAt_get_self st.records i, fun j hj => releaseAt_get_ne st.records i j hj⟩,
   rfl, rfl⟩

/-- Witness for C3 at the state `reopenStore` reached just before the
`.close()` call: the matcher releases index 0, the earlier of the two
`a`-owned file handles. -/
theorem release_marks_earliest_witness :
    reopenStore.by_name.lookup "a" = some [0, 1]
    ∧ findRelease reopenStore.records [0, 1] "file_handle" = some 0
    ∧ (mark_released reopenStore "a" "file_handle"
         = { reopenStore with records := releaseAt reopenStore.records 0 }
       ∧ matchedEarliest reopenStore.records [0, 1] "file_handle" 0
       ∧ releasedExactlyAt reopenStore.records (releaseAt reopenStore.records 0) 0
       ∧ runAnalyzer reopenTree
           = .ok { reopenStore with
                     records := [⟨some "a", "file_handle", 1, true⟩,
                                 ⟨some "a", "file_handle", 2, false⟩] }
       ∧ analyze "t.py" (.parsed reopenTree) = .ok ["t.py:2\tfile_handle\t"]) :=
  ⟨by decide, by decide,
   release_marks_earliest reopenStore "a" "file_handle" [0, 1] 0 (by decide) (by decide)⟩

/-- Claim C6: `close` belongs to both the file-handle and the
socket-handle release sets, but `releaseKind` resolves it to the first
kind of the fixed iteration order (`file_handle`); in general a method is
resolved to the earliest kind whose set holds it, no further kind is
attempted and an attribute release call only ever releases through that
single kind, so `.close()` never changes a non-file record; concretely
`import socket; s = socket.socket(); s.close()` still reports the socket
as leaked. -/
theorem close_attempts_only_first_kind :
    ("close" ∈ ((RELEASE_METHODS.lookup "file_handle").getD [])
      ∧ "close" ∈ ((RELEASE_METHODS.lookup "socket_handle").getD [])
      ∧ releaseKind "close" = some "file_handle")
    ∧ (∀ m k2, releaseKind m = some k2 →
        ∃ pre ms post, RELEASE_METHODS = pre ++ (k2, ms) :: post ∧ m ∈ ms
          ∧ ∀ p ∈ pre, m ∉ p.2)
    ∧ (∀ st anid bnid n m k2, releaseKind m = some k2 →
        handle_release st (.attributeE anid (.name bnid n) m) = mark_released st n k2)
    ∧ (∀ st anid bnid n i r,
        st.records.get? i = some r → r.kind ≠ "file_handle" →
        (handle_release st (.attributeE anid (.name bnid n) "close")).records.get? i
          = some r)
    ∧ analyze "t.py" (.parsed socketCloseTree) = .ok ["t.py:2\tsocket_handle\t"] := by
  refine ⟨⟨by decide, by decide, rfl⟩, ?_, ?_, ?_, rfl⟩
  · intro m k2 hk
    unfold releaseKind at hk
    cases hq : RELEASE_METHODS.find? (fun p => m ∈ p.2) with
    | none => rw [hq] at hk; simp at hk
    | some q =>
        rw [hq] at hk
        have hk1 : q.1 = k2 := by simpa using hk
        obtain ⟨pre, post, h1, h2, h3⟩ := find_first (fun p => m ∈ p.2) RELEASE_METHODS q hq
        refine ⟨pre, q.2, post, by rw [← hk1, ← h1], by simpa using h2, ?_⟩
        intro p hp
        have := h3 p hp
        simpa using this
  · intro st anid bnid n m k2 hk
    simp only [handle_release, hk]
  · intro st anid bnid n i r hg hkind
    have hck : releaseKind "close" = some "file_handle" := rfl
    simp only [handle_release, hck]
    exact mark_released_get_of_kind_ne st n "file_handle" i r hg hkind

/-- Witness for C6: at `socketStore` (one unreleased socket record owned
by `s`), a `s.close()` release attempt resolves to `file_handle` only and
leaves the socket record untouched. -/
theorem close_attempts_only_first_kind_witness :
    releaseKind "close" = some "file_handle"
    ∧ (∃ pre ms post, RELEASE_METHODS = pre ++ ("file_handle", ms) :: post
         ∧ "close" ∈ ms ∧ ∀ p ∈ pre, "close" ∉ p.2)
    ∧ handle_release socketStore (.attributeE 5 (.name 6 "s") "close")
        = mark_released socketStore "s" "file_handle"
    ∧ socketStore.records.get? 0 = some ⟨some "s", "socket_handle", 2, false⟩
    ∧ (handle_release socketStore (.attributeE 5 (.name 6 "s") "close")).records.get? 0
        = some ⟨some "s", "socket_handle", 2, false⟩ :=
  ⟨rfl,
   close_attempts_only_first_kind.2.1 "close" "file_handle" rfl,
   close_attempts_only_first_kind.2.2.1 socketStore 5 6 "s" "close" "file_handle" rfl,
   by decide,
   close_attempts_only_first_kind.2.2.2.1 socketStore 5 6 "s" 0
     ⟨some "s", "socket_handle", 2, false⟩ (by decide) (by decide)⟩

/-- Claim C8: a release attempt on a name holding no unreleased record of
the matching kind (in particular a name with no records at all) leaves
the whole analyzer state, including the Resource Record Store, unchanged
and raises no error. -/
theorem release_without_match_is_noop (st : Analyzer) (n k : String)
    (h : ∀ i ∈ (st.by_name.lookup n).getD [], recNoMatch st.records k i = true) :
    mark_released st n k = st :=
  mark_released_noop st n k h

/-- Witness for C8: `reopenStore` holds only file-handle records under
`a`, so releasing a socket handle of `a` (and anything of the unknown
name `z`) is a complete no-op. -/
theorem release_without_match_is_noop_witness :
    (∀ i ∈ (reopenStore.by_name.lookup "a").getD [],
       recNoMatch reopenStore.records "socket_handle" i = true)
    ∧ mark_released reopenStore "a" "socket_handle" = reopenStore
    ∧ mark_released reopenStore "z" "file_handle" = reopenStore :=
  ⟨by decide,
   release_without_match_is_noop reopenStore "a" "socket_handle" (by decide),
   release_without_match_is_noop reopenStore "z" "file_handle" (by decide)⟩

/-- Counterexample to claim C2 as stated: `x, y = open("p")` holds a
single acquisition call node (nid 3), yet the full traversal creates TWO
resource records for it — one per bound name — and reports two
diagnostics.  "At most one record per acquisition expression node" fails
whenever an assignment binds a non-cancellable acquisition to more than
one name. -/
theorem fanout_creates_two_records :
    runAnalyzer fanoutTree
      = .ok { aliases := [],
              records := [⟨some "x", "file_handle", 1, false⟩,
                          ⟨some "y", "file_handle", 1, false⟩],
              by_name := [("x", [0]), ("y", [1])],
              safe_calls := [],
              assigned_calls := [3] }
    ∧ analyze "t.py" (.parsed fanoutTree)
      = .ok ["t.py:1\tfile_handle\t", "t.py:1\tfile_handle\t"] :=
  ⟨rfl, rfl⟩

/-- Amended claim C2: an assignment classifying a non-cancellable
acquisition creates exactly one record per bound name (`n` records for
one call node, not at most one) and marks the node's identity assigned;
the identity-based set then makes the later generic call visit create no
further record for that node, so no record beyond the per-name ones ever
arises from one acquisition node. -/
theorem assignment_record_per_name :
    (∀ (st : Analyzer) (targets : List Expr) (nid : Nat) (func : Expr)
       (args kws : List Expr) (ln : Nat) (sig : Sig) (kind : String),
       call_signature_func st.aliases func = some sig →
       sigKind sig = some kind →
       kind ≠ "context_cancel" →
       collect_names_list targets ≠ [] →
       ∃ st2, handle_assignment st targets (.call nid func args kws ln) = .ok st2
         ∧ st2.records = st.records
             ++ (collect_names_list targets).map
                  (fun nm => (⟨some nm, kind, ln, false⟩ : ResourceRecord))
         ∧ st2.assigned_calls = setAdd st.assigned_calls nid)
    ∧ (∀ (st : Analyzer) (nid : Nat) (func : Expr) (args kws : List Expr) (ln : Nat),
        nid ∈ st.assigned_calls →
        visitExpr st (.call nid func args kws ln)
          = visitExprList (visitExprList (visitExpr (handle_release st func) func) args) kws) := by
  constructor
  · intro st targets nid func args kws ln sig kind hsig hkind hnc hne
    refine ⟨(collect_names_list targets).foldl
        (fun acc nm => add_record acc (some nm) kind ln)
        { st with assigned_calls := setAdd st.assigned_calls nid }, ?_, ?_, ?_⟩
    · simp only [handle_assignment, call_signature, hsig, hkind, Expr.nid, Expr.line]
      rw [if_neg hnc]
      cases hn : collect_names_list targets with
      | nil => exact absurd hn hne
      | cons n rest => simp only [hn]
    · rw [foldl_add_record_records]
    · rw [foldl_add_record_assigned]
  · intro st nid func args kws ln h
    simp only [visitExpr]
    rw [if_pos h]

/-- Witness for the amended C2 at `x, y = open("p")`: the assignment
handler creates exactly two records, one for `x` and one for `y`, and a
call node whose identity is in the assigned set adds nothing. -/
theorem assignment_record_per_name_witness :
    (call_signature_func initAnalyzer.aliases (.name 4 "open") = some (none, "open")
     ∧ sigKind (none, "open") = some "file_handle"
     ∧ ("file_handle" : String) ≠ "context_cancel"
     ∧ collect_names_list [.tupleE 0 [.name 1 "x", .name 2 "y"]] ≠ []
     ∧ ∃ st2, handle_assignment initAnalyzer [.tupleE 0 [.name 1 "x", .name 2 "y"]]
          (.call 3 (.name 4 "open") [.constE 5] [] 1) = .ok st2
        ∧ st2.records = initAnalyzer.records
            ++ (collect_names_list [.tupleE 0 [.name 1 "x", .name 2 "y"]]).map
                 (fun nm => (⟨some nm, "file_handle", 1, false⟩ : ResourceRecord))
        ∧ st2.assigned_calls = setAdd initAnalyzer.assigned_calls 3)
    ∧ ((3 : Nat) ∈ ({ initAnalyzer with assigned_calls := [3] } : Analyzer).assigned_calls
       ∧ visitExpr { initAnalyzer with assigned_calls := [3] }
           (.call 3 (.name 4 "open") [.constE 5] [] 1)
         = visitExprList (visitExprList
             (visitExpr (handle_release { initAnalyzer with assigned_calls := [3] } (.name 4 "open"))
               (.name 4 "open")) [.constE 5]) []) :=
  ⟨⟨rfl, rfl, by decide, by decide,
    assignment_record_per_name.1 initAnalyzer [.tupleE 0 [.name 1 "x", .name 2 "y"]]
      3 (.name 4 "open") [.constE 5] [] 1 (none, "open") "file_handle"
      rfl rfl (by decide) (by decide)⟩,
   ⟨by decide,
    assignment_record_per_name.2 { initAnalyzer with assigned_calls := [3] }
      3 (.name 4 "open") [.constE 5] [] 1 (by decide)⟩⟩

/-- Claim C4: a `with`/`async with` item whose managed expression is a
call with a registered signature gets that call node's identity into the
safe set before the body is visited; the generic call visit then creates
no record for a safe, unassigned call node; concretely
`with open("x") as f: pass`, the same without the `as` binding, and the
`async with` variant all produce zero diagnostics. -/
theorem with_managed_call_never_recorded :
    (∀ (st : Analyzer) (items : List WithItem) (item : WithItem) (sig : Sig),
       item ∈ items →
       call_signature_from_expr st.aliases item.context_expr = some sig →
       (sigKind sig).isSome = true →
       item.context_expr.nid ∈ (mark_safe st items).safe_calls)
    ∧ (∀ (st : Analyzer) (nid : Nat) (func : Expr) (args kws : List Expr) (ln : Nat),
        nid ∈ st.safe_calls → nid ∉ st.assigned_calls →
        visitExpr st (.call nid func args kws ln)
          = visitExprList (visitExprList (visitExpr (handle_release st func) func) args) kws)
    ∧ analyze "t.py" (.parsed withAsTree) = .ok []
    ∧ analyze "t.py" (.parsed withNoAsTree) = .ok []
    ∧ analyze "t.py" (.parsed asyncWithTree) = .ok [] := by
  refine ⟨fun st items item sig h1 h2 h3 => mark_safe_marks items st item sig h1 h2 h3,
          ?_, rfl, rfl, rfl⟩
  intro st nid func args kws ln h1 h2
  simp only [visitExpr]
  rw [if_neg h2]
  split
  · rfl
  · split
    · rfl
    · rw [if_pos h1]

/-- Witness for C4: the single item of `withAsTree` (managed call
`open("x")`, nid 0) is marked safe, and visiting that safe call adds no
record. -/
theorem with_managed_call_never_recorded_witness :
    ((⟨.call 0 (.name 1 "open") [.constE 2] [] 1, some (.name 3 "f")⟩ : WithItem)
       ∈ [(⟨.call 0 (.name 1 "open") [.constE 2] [] 1, some (.name 3 "f")⟩ : WithItem)]
     ∧ call_signature_from_expr initAnalyzer.aliases
         (.call 0 (.name 1 "open") [.constE 2] [] 1) = some (none, "open")
     ∧ (sigKind (none, "open")).isSome = true
     ∧ (Expr.call 0 (.name 1 "open") [.constE 2] [] 1).nid
         ∈ (mark_safe initAnalyzer
             [⟨.call 0 (.name 1 "open") [.constE 2] [] 1, some (.name 3 "f")⟩]).safe_calls)
    ∧ ((0 : Nat) ∈ ({ initAnalyzer with safe_calls := [0] } : Analyzer).safe_calls
       ∧ (0 : Nat) ∉ ({ initAnalyzer with safe_calls := [0] } : Analyzer).assigned_calls
       ∧ visitExpr { initAnalyzer with safe_calls := [0] }
           (.call 0 (.name 1 "open") [.constE 2] [] 1)
         = visitExprList (visitExprList
             (visitExpr (handle_release { initAnalyzer with safe_calls := [0] } (.name 1 "open"))
               (.name 1 "open")) [.constE 2]) []) :=
  ⟨⟨List.mem_singleton.mpr rfl, rfl, rfl,
    with_managed_call_never_recorded.1 initAnalyzer
      [⟨.call 0 (.name 1 "open") [.constE 2] [] 1, some (.name 3 "f")⟩]
      ⟨.call 0 (.name 1 "open") [.constE 2] [] 1, some (.name 3 "f")⟩
      (none, "open") (List.mem_singleton.mpr rfl) rfl rfl⟩,
   ⟨by decide, by decide,
    with_managed_call_never_recorded.2.1 { initAnalyzer with safe_calls := [0] }
      0 (.name 1 "open") [.constE 2] [] 1 (by decide) (by decide)⟩⟩

/-- Claim C5: assigning a cancellable-context acquisition to two or more
bound names creates exactly one record, owned by the second flattened
name, at the call's line; a later bare call of that name releases it
(`cancelReleasedTree` reports nothing) and never calling it leaves the
record reported (`cancelLeakedTree` reports one `context_cancel` leak);
with three bound names the record still goes to the second. -/
theorem cancellable_owned_by_second_name :
    (∀ (st : Analyzer) (targets : List Expr) (nid : Nat) (func : Expr)
       (args kws : List Expr) (ln : Nat) (sig : Sig) (n1 n2 : String) (rest : List String),
       call_signature_func st.aliases func = some sig →
       sigKind sig = some "context_cancel" →
       collect_names_list targets = n1 :: n2 :: rest →
       n2 ≠ "" →
       handle_assignment st targets (.call nid func args kws ln)
         = .ok { st with
                   records := st.records ++ [⟨some n2, "context_cancel", ln, false⟩],
                   by_name := byNameAppend st.by_name n2 st.records.length,
                   assigned_calls := setAdd st.assigned_calls nid })
    ∧ analyze "t.py" (.parsed cancelReleasedTree) = .ok []
    ∧ analyze "t.py" (.parsed cancelLeakedTree) = .ok ["t.py:2\tcontext_cancel\t"]
    ∧ (runAnalyzer cancelThreeTree).map (fun st => st.records)
        = .ok [⟨some "cancel", "context_cancel", 2, false⟩] := by
  refine ⟨?_, rfl, rfl, rfl⟩
  intro st targets nid func args kws ln sig n1 n2 rest hsig hkind hnames h2
  simp only [handle_assignment, call_signature, hsig, hkind, Expr.nid, Expr.line,
    if_true]
  simp only [hnames]
  simp [add_record, pyTruthy, h2]

/-- Witness for C5 at `ctx, cancel = WithCancel()` (after the import):
one record, owned by `cancel`. -/
theorem cancellable_owned_by_second_name_witness :
    (call_signature_func [("WithCancel", (some "context", some "WithCancel"))]
       (.name 4 "WithCancel") = some (some "context", "WithCancel")
     ∧ sigKind (some "context", "WithCancel") = some "context_cancel"
     ∧ collect_names_list [.tupleE 0 [.name 1 "ctx", .name 2 "cancel"]]
         = ["ctx", "cancel"]
     ∧ ("cancel" : String) ≠ ""
     ∧ handle_assignment
         { initAnalyzer with aliases := [("WithCancel", (some "context", some "WithCancel"))] }
         [.tupleE 0 [.name 1 "ctx", .name 2 "cancel"]]
         (.call 3 (.name 4 "WithCancel") [] [] 2)
       = .ok { initAnalyzer with
                 aliases := [("WithCancel", (some "context", some "WithCancel"))],
                 records := [⟨some "cancel", "context_cancel", 2, false⟩],
                 by_name := byNameAppend [] "cancel" 0,
                 assigned_calls := setAdd [] 3 }) :=
  ⟨rfl, rfl, by decide, by decide,
   cancellable_owned_by_second_name.1
     { initAnalyzer with aliases := [("WithCancel", (some "context", some "WithCancel"))] }
     [.tupleE 0 [.name 1 "ctx", .name 2 "cancel"]]
     3 (.name 4 "WithCancel") [] [] 2 (some "context", "WithCancel")
     "ctx" "cancel" [] rfl rfl (by decide) (by decide)⟩

/-- Claim C10: the release matcher runs on every visited call node, even
one whose record creation is suppressed: for an assignment
`x = f.close()` the right-hand call (unregistered signature, so no record
and no assigned-set entry) still releases the earliest unreleased
file-handle record owned by `f`; and a bare-name call that is
with-exempted (in the safe set) still fires the cancellable-context
release for its name. -/
theorem release_matcher_runs_on_every_call :
    (∀ (st : Analyzer) (x f : String) (n1 cnid anid bnid ln : Nat)
       (entries : List Nat) (i : Nat),
       cnid ∉ st.assigned_calls →
       st.by_name.lookup f = some entries →
       findRelease st.records entries "file_handle" = some i →
       visitStmt st (.assign [.name n1 x]
         (.call cnid (.attributeE anid (.name bnid f) "close") [] [] ln))
         = .ok { st with records := releaseAt st.records i })
    ∧ (∀ (st : Analyzer) (nid nnid : Nat) (f : String) (ln : Nat),
        nid ∈ st.safe_calls → nid ∉ st.assigned_calls →
        visitExpr st (.call nid (.name nnid f) [] [] ln)
          = mark_released st f "context_cancel") := by
  constructor
  · intro st x f n1 cnid anid bnid ln entries i h1 h2 h3
    obtain ⟨M, hM⟩ := call_signature_close st.aliases anid bnid f
    have hha : handle_assignment st [.name n1 x]
        (.call cnid (.attributeE anid (.name bnid f) "close") [] [] ln) = .ok st := by
      simp only [handle_assignment, call_signature, hM, sigKind_close]
    simp only [visitStmt, hha]
    have hvl : visitExprList st [.name n1 x] = st := by
      simp [visitExprList, visitExpr]
    rw [hvl]
    simp only [visitExpr]
    rw [if_neg h1]
    simp only [hM, sigKind_close]
    simp only [handle_release]
    have hrk : releaseKind "close" = some "file_handle" := rfl
    simp only [hrk]
    rw [mark_released_eq st f "file_handle" entries i h2 h3]
    simp [visitExpr, visitExprList]
  · intro st nid nnid f ln h1 h2
    simp only [visitExpr]
    rw [if_neg h2]
    split
    · rfl
    · split
      · rfl
      · rw [if_pos h1]
        rfl

/-- Witness for C10: with one unreleased file record owned by `f`
(`fileStore`), the statement `x = f.close()` flips it; and a safe bare
call `g()` in a tiny state performs the cancellable-context release. -/
theorem release_matcher_runs_on_every_call_witness :
    ((1 : Nat) ∉ fileStore.assigned_calls
     ∧ fileStore.by_name.lookup "f" = some [0]
     ∧ findRelease fileStore.records [0] "file_handle" = some 0
     ∧ visitStmt fileStore (.assign [.name 10 "x"]
         (.call 1 (.attributeE 2 (.name 3 "f") "close") [] [] 2))
         = .ok { fileStore with records := releaseAt fileStore.records 0 })
    ∧ ((7 : Nat) ∈ ({ initAnalyzer with safe_calls := [7] } : Analyzer).safe_calls
       ∧ (7 : Nat) ∉ ({ initAnalyzer with safe_calls := [7] } : Analyzer).assigned_calls
       ∧ visitExpr { initAnalyzer with safe_calls := [7] } (.call 7 (.name 8 "g") [] [] 3)
           = mark_released { initAnalyzer with safe_calls := [7] } "g" "context_cancel") :=
  ⟨⟨by decide, by decide, by decide,
    release_matcher_runs_on_every_call.1 fileStore "x" "f" 10 1 2 3 2 [0] 0
      (by decide) (by decide) (by decide)⟩,
   ⟨by decide, by decide,
    release_matcher_runs_on_every_call.2 { initAnalyzer with safe_calls := [7] }
      7 8 "g" 3 (by decide) (by decide)⟩⟩

end RLC
